import Mathlib

/-!
Verification of the mikhailtal_trader decision pipeline.

Shallow embedding of the core of the repository:
* `calculate_kelly_bet` (src/mikhailtal_trader/utils.py) — the fractional
  Kelly stake sizer.  Python `float` arithmetic is modelled over `ℚ`; a
  Python `ZeroDivisionError` is modelled as `Except.error`.
* `rate_limit` (src/mikhailtal_trader/api_client.py `_rate_limit`) — a step
  function on the client's (request counter, window start) state.
* `parse_response` / `analyze` (src/mikhailtal_trader/strategies/llm_strategy.py)
  — the reply parser and the total analyze wrapper; the outbound call to the
  text-generation back-end is supplied as an `Except String String` argument.
* `execute_trades`, `process_market`, `check_markets`, `run_cycles`, `run`,
  `run_from`, `loop_stop` (src/mikhailtal_trader/bot.py) — the per-market
  pipeline, the consensus selection, the processed-set bookkeeping and the
  top-level loop (fuel-bounded, counting executed cycles).

Market dictionaries are modelled as a structure whose optional fields mirror
exactly the keys the code reads with `dict.get` (missing key allowed), while
keys the code reads with mandatory indexing (`m["id"]`, `m["question"]`) are
plain fields.
-/

/-- Market snapshot, mirroring the dictionary fields read by the code.
`id` and `question` are accessed by mandatory indexing in bot.py, the rest
through `dict.get` with a default, hence `Option`. -/
structure Market where
  id : String
  question : String
  description : String
  probability : Option ℚ
  isResolved : Option Bool
  closeTime : Option ℚ
  outcomeType : Option String
  volume : Option ℚ
deriving DecidableEq, Repr

/-- `StrategySignal` from src/mikhailtal_trader/strategies/base_strategy.py. -/
structure StrategySignal where
  should_bet : Bool
  outcome : String
  confidence : ℚ
  estimated_probability : ℚ
  reasoning : String
  suggested_amount : Option ℚ
deriving DecidableEq, Repr

/-- `calculate_kelly_bet` from src/mikhailtal_trader/utils.py.
Python floats are modelled as rationals; the divisions `(1 - market_prob) /
market_prob` and `... / b` raise `ZeroDivisionError` in Python when the
divisor is zero, modelled by the `Except.error` branches. -/
def calculate_kelly_bet (probability market_prob bankroll max_bet fraction : ℚ) :
    Except String ℚ :=
  if probability ≤ market_prob ∨ probability ≤ 0 ∨ probability ≥ 1 then
    Except.ok 0
  else if market_prob = 0 then
    Except.error "ZeroDivisionError: float division by zero"
  else
    let b := (1 - market_prob) / market_prob
    if b = 0 then
      Except.error "ZeroDivisionError: float division by zero"
    else
      let kelly_fraction := (b * probability - (1 - probability)) / b
      let bet_size := kelly_fraction * fraction * bankroll
      Except.ok (min (max bet_size 0) max_bet)

/-- The implied odds `b = (1 - q) / q` computed by `calculate_kelly_bet`. -/
def kelly_odds (market_prob : ℚ) : ℚ := (1 - market_prob) / market_prob

/-- The full Kelly fraction `k = (b*p - (1-p)) / b` computed by
`calculate_kelly_bet`. -/
def kelly_full_fraction (probability market_prob : ℚ) : ℚ :=
  (kelly_odds market_prob * probability - (1 - probability)) / kelly_odds market_prob

/-- C2: with q strictly inside (0,1) and nonnegative bankroll, cap and
fraction: the sizer returns 0 whenever p ≤ q or p ≤ 0 or p ≥ 1, and
otherwise returns clamp(k·f·B, 0, M); that clamped value is nonnegative,
at most M, and at most the raw fractional-Kelly value k·f·B. -/
theorem calculate_kelly_bet_spec (p q B M f : ℚ)
    (hq0 : 0 < q) (hq1 : q < 1) (hB : 0 ≤ B) (hM : 0 ≤ M) (hf : 0 ≤ f) :
    (p ≤ q ∨ p ≤ 0 ∨ p ≥ 1 → calculate_kelly_bet p q B M f = Except.ok 0) ∧
    (q < p → p < 1 →
      calculate_kelly_bet p q B M f =
        Except.ok (min (max (kelly_full_fraction p q * f * B) 0) M) ∧
      0 ≤ min (max (kelly_full_fraction p q * f * B) 0) M ∧
      min (max (kelly_full_fraction p q * f * B) 0) M ≤ M ∧
      min (max (kelly_full_fraction p q * f * B) 0) M ≤ kelly_full_fraction p q * f * B) := by
  have hqne : q ≠ 0 := ne_of_gt hq0
  have hb : 0 < (1 - q) / q := div_pos (by linarith) hq0
  have hbne : (1 - q) / q ≠ 0 := ne_of_gt hb
  constructor
  · intro h
    simp only [calculate_kelly_bet, if_pos h]
  · intro hqp hp1
    have hguard : ¬(p ≤ q ∨ p ≤ 0 ∨ p ≥ 1) := by
      push_neg
      refine ⟨by linarith, by linarith, by linarith⟩
    have heq : calculate_kelly_bet p q B M f =
        Except.ok (min (max (kelly_full_fraction p q * f * B) 0) M) := by
      simp only [calculate_kelly_bet, if_neg hguard, if_neg hqne, if_neg hbne,
        kelly_full_fraction, kelly_odds]
    refine ⟨heq, ?_, min_le_right _ _, ?_⟩
    · exact le_min (le_max_right _ _) hM
    · have hnum : kelly_odds q * p - (1 - p) = (p - q) / q := by
        unfold kelly_odds
        field_simp
        ring
      have hk : 0 < kelly_full_fraction p q := by
        unfold kelly_full_fraction
        rw [hnum]
        exact div_pos (div_pos (by linarith) hq0) hb
      have hkfB : 0 ≤ kelly_full_fraction p q * f * B :=
        mul_nonneg (mul_nonneg (le_of_lt hk) hf) hB
      calc min (max (kelly_full_fraction p q * f * B) 0) M
          ≤ max (kelly_full_fraction p q * f * B) 0 := min_le_left _ _
        _ = kelly_full_fraction p q * f * B := max_eq_left hkfB

/-- Witness for C2, at p = 3/10 resp. 7/10, q = 1/2, B = 1000, M = 100,
f = 1/4. -/
theorem calculate_kelly_bet_spec_witness :
    calculate_kelly_bet (3/10) (1/2) 1000 100 (1/4) = Except.ok 0 ∧
    (calculate_kelly_bet (7/10) (1/2) 1000 100 (1/4) =
        Except.ok (min (max (kelly_full_fraction (7/10) (1/2) * (1/4) * 1000) 0) 100) ∧
      0 ≤ min (max (kelly_full_fraction (7/10) (1/2) * (1/4) * 1000) 0) 100 ∧
      min (max (kelly_full_fraction (7/10) (1/2) * (1/4) * 1000) 0) 100 ≤ 100 ∧
      min (max (kelly_full_fraction (7/10) (1/2) * (1/4) * 1000) 0) 100 ≤
        kelly_full_fraction (7/10) (1/2) * (1/4) * 1000) :=
  ⟨(calculate_kelly_bet_spec (3/10) (1/2) 1000 100 (1/4) (by norm_num) (by norm_num)
      (by norm_num) (by norm_num) (by norm_num)).1 (Or.inl (by norm_num)),
   (calculate_kelly_bet_spec (7/10) (1/2) 1000 100 (1/4) (by norm_num) (by norm_num)
      (by norm_num) (by norm_num) (by norm_num)).2 (by norm_num) (by norm_num)⟩

/-- C3 (code bug): at q = 0 with a positive edge (p = 1/2), the guard
`p ≤ q ∨ p ≤ 0 ∨ p ≥ 1` does not fire and the code computes
`(1 - 0) / 0`, a Python ZeroDivisionError — no value is returned, contrary
to the spec's required clamp-to-M behaviour. -/
theorem calculate_kelly_bet_q_zero_raises :
    calculate_kelly_bet (1/2) 0 1000 100 (1/4) =
      Except.error "ZeroDivisionError: float division by zero" := by
  norm_num [calculate_kelly_bet]

/-- C7: the stake sizer at p = 0.7, q = 0.5, B = 1000, M = 100, f = 0.25
returns exactly 100 (exact-arithmetic model of the float computation). -/
theorem calculate_kelly_bet_example :
    calculate_kelly_bet (7/10) (1/2) 1000 100 (1/4) = Except.ok 100 := by
  norm_num [calculate_kelly_bet]

/-- Mutable state of `ManifoldAPIClient` relevant to rate limiting:
`request_count` and `last_request_time` (src/mikhailtal_trader/api_client.py). -/
structure ClientState where
  request_count : ℕ
  last_request_time : ℚ
deriving DecidableEq, Repr

/-- `_rate_limit` from src/mikhailtal_trader/api_client.py as a step function:
given the current state and the current time, it returns the new state and
`some d` when the call sleeps for `d` seconds (`none` when it does not block).
The Python body increments the counter, then resets (counter, window start)
if more than 60 s have elapsed, then checks the incremented counter against
the 450 ceiling; here the ceiling check is written once per outcome of the
reset check (after a reset the counter is 0, so the dead `0 > 450` branch is
kept verbatim).  After a sleep the code sets `last_request_time` to the
wake-up time `now + wait`. -/
def rate_limit (s : ClientState) (now : ℚ) : ClientState × Option ℚ :=
  if now - s.last_request_time > 60 then
    if (0 : ℕ) > 450 then
      ({ request_count := 0, last_request_time := now + (60 - (now - now)) },
        some (60 - (now - now)))
    else
      ({ request_count := 0, last_request_time := now }, none)
  else
    if s.request_count + 1 > 450 then
      ({ request_count := 0,
         last_request_time := now + (60 - (now - s.last_request_time)) },
        some (60 - (now - s.last_request_time)))
    else
      ({ request_count := s.request_count + 1,
         last_request_time := s.last_request_time }, none)

/-- `n` consecutive `_rate_limit` calls, all at time `t`, starting from a
fresh client created at time `t`; returns the final state and the number of
calls that blocked. -/
def rate_limit_calls : ℕ → ℚ → ClientState × ℕ
  | 0, t => ({ request_count := 0, last_request_time := t }, 0)
  | n + 1, t =>
    let r := rate_limit_calls n t
    let r2 := rate_limit r.1 t
    (r2.1, r.2 + if r2.2.isSome then 1 else 0)

lemma rate_limit_calls_succ (n : ℕ) (t : ℚ) :
    rate_limit_calls (n + 1) t =
      ((rate_limit (rate_limit_calls n t).1 t).1,
        (rate_limit_calls n t).2 +
          if (rate_limit (rate_limit_calls n t).1 t).2.isSome then 1 else 0) := rfl

lemma rate_limit_calls_le_450 (t : ℚ) (n : ℕ) (hn : n ≤ 450) :
    rate_limit_calls n t = ({ request_count := n, last_request_time := t }, 0) := by
  induction n with
  | zero => rfl
  | succ k ih =>
    have hk : k ≤ 450 := Nat.le_of_succ_le hn
    have hstep : rate_limit { request_count := k, last_request_time := t } t =
        ({ request_count := k + 1, last_request_time := t }, none) := by
      simp only [rate_limit]
      rw [if_neg (by norm_num : ¬((t : ℚ) - t > 60)),
        if_neg (by omega : ¬(k + 1 > 450))]
    rw [rate_limit_calls_succ, ih hk]
    simp [hstep]

/-- C6: the rate limiter as a step function on (request counter, window
start).  (1) If more than 60 s have elapsed since window start, counter and
window start are reset and the call does not block.  (2) Within the window
and below the ceiling, the call merely increments the counter.  (3) Within
the window, once the incremented counter passes the 450 ceiling the call
blocks for exactly the remainder of the window (waking at window start +
60 s) and the counter resets to 0.  (4) The post-state counter never
exceeds 450.  (5) From a fresh client, the first 450 calls inside one
window never block and the 451st blocks. -/
theorem rate_limit_spec (s : ClientState) (now : ℚ) :
    (now - s.last_request_time > 60 →
      rate_limit s now = ({ request_count := 0, last_request_time := now }, none)) ∧
    (now - s.last_request_time ≤ 60 → s.request_count + 1 ≤ 450 →
      rate_limit s now =
        ({ request_count := s.request_count + 1,
           last_request_time := s.last_request_time }, none)) ∧
    (now - s.last_request_time ≤ 60 → s.request_count + 1 > 450 →
      rate_limit s now =
        ({ request_count := 0,
           last_request_time := now + (60 - (now - s.last_request_time)) },
          some (60 - (now - s.last_request_time))) ∧
      now + (60 - (now - s.last_request_time)) = s.last_request_time + 60) ∧
    (rate_limit s now).1.request_count ≤ 450 ∧
    (∀ t : ℚ, ∀ n : ℕ, n ≤ 450 → (rate_limit_calls n t).2 = 0) ∧
    (∀ t : ℚ, (rate_limit_calls 451 t).2 = 1) := by
  refine ⟨?_, ?_, ?_, ?_, ?_, ?_⟩
  · intro h
    simp only [rate_limit, if_pos h]
    rw [if_neg (by norm_num : ¬((0 : ℕ) > 450))]
  · intro h hc
    simp only [rate_limit, if_neg (not_lt.mpr h)]
    rw [if_neg (by omega : ¬(s.request_count + 1 > 450))]
  · intro h hc
    refine ⟨?_, by ring⟩
    simp only [rate_limit, if_neg (not_lt.mpr h)]
    rw [if_pos hc]
  · by_cases h : now - s.last_request_time > 60
    · simp only [rate_limit, if_pos h]
      rw [if_neg (by norm_num : ¬((0 : ℕ) > 450))]
      norm_num
    · simp only [rate_limit, if_neg h]
      by_cases hc : s.request_count + 1 > 450
      · rw [if_pos hc]
        norm_num
      · rw [if_neg hc]
        simp only []
        omega
  · intro t n hn
    rw [rate_limit_calls_le_450 t n hn]
  · intro t
    have h450 := rate_limit_calls_le_450 t 450 (by norm_num)
    have hstep : rate_limit { request_count := 450, last_request_time := t } t =
        ({ request_count := 0, last_request_time := t + (60 - ((t : ℚ) - t)) },
          some (60 - ((t : ℚ) - t))) := by
      simp only [rate_limit]
      rw [if_neg (by norm_num : ¬((t : ℚ) - t > 60)),
        if_pos (by norm_num : (450 : ℕ) + 1 > 450)]
    rw [show (451 : ℕ) = 450 + 1 from rfl, rate_limit_calls_succ, h450]
    simp [hstep]

/-- Witness for C6: a client at count 450 inside the window blocks on the
next call for the full 60 s remainder, waking at window start + 60, and
resets to 0; 450 same-time calls from fresh never block; the 451st does. -/
theorem rate_limit_spec_witness :
    (rate_limit { request_count := 450, last_request_time := 0 } 0 =
      ({ request_count := 0, last_request_time := 0 + (60 - ((0 : ℚ) - 0)) },
        some (60 - ((0 : ℚ) - 0))) ∧
      (0 : ℚ) + (60 - ((0 : ℚ) - 0)) = 0 + 60) ∧
    (rate_limit_calls 450 0).2 = 0 ∧
    (rate_limit_calls 451 0).2 = 1 :=
  ⟨(rate_limit_spec { request_count := 450, last_request_time := 0 } 0).2.2.1
      (by norm_num) (by norm_num),
   (rate_limit_spec { request_count := 0, last_request_time := 0 } 0).2.2.2.2.1 0 450
      (by norm_num),
   (rate_limit_spec { request_count := 0, last_request_time := 0 } 0).2.2.2.2.2 0⟩

/-- The loop guard of `ManifoldBot.run` (src/mikhailtal_trader/bot.py):
`if max_iterations and iteration >= max_iterations: break`.  Python
truthiness: `None` and `0` are falsy, so the guard can only fire for a
nonzero limit. -/
def loop_stop (max_iterations : Option ℕ) (iteration : ℕ) : Bool :=
  match max_iterations with
  | none => false
  | some n => decide (n ≠ 0) && decide (iteration ≥ n)

/-- The `while True` loop of `ManifoldBot.run`, fuel-bounded: starting from
the given iteration counter, returns how many processing cycles
(`_check_markets` calls) execute within `fuel` passes of the loop. -/
def run_from (max_iterations : Option ℕ) : ℕ → ℕ → ℕ
  | _, 0 => 0
  | iteration, fuel + 1 =>
    if loop_stop max_iterations iteration then 0
    else run_from max_iterations (iteration + 1) fuel + 1

/-- `ManifoldBot.run`: raises `ValueError` when no strategy is registered,
otherwise enters the polling loop (strategies are identified by name here;
the loop body is summarised by its cycle count). -/
def run (strategies : List String) (max_iterations : Option ℕ) (fuel : ℕ) :
    Except String ℕ :=
  if strategies.isEmpty then
    Except.error "No strategies added. Add at least one strategy before running."
  else
    Except.ok (run_from max_iterations 0 fuel)

lemma run_from_none (i fuel : ℕ) : run_from none i fuel = fuel := by
  induction fuel generalizing i with
  | zero => rfl
  | succ k ih => simp [run_from, loop_stop, ih]

lemma run_from_zero_limit (i fuel : ℕ) : run_from (some 0) i fuel = fuel := by
  induction fuel generalizing i with
  | zero => rfl
  | succ k ih => simp [run_from, loop_stop, ih]

lemma run_from_some (n i fuel : ℕ) (hn : 0 < n) (hi : i ≤ n)
    (hfuel : n - i < fuel) : run_from (some n) i fuel = n - i := by
  induction fuel generalizing i with
  | zero => omega
  | succ k ih =>
    by_cases hstop : i ≥ n
    · have hin : i = n := le_antisymm hi hstop
      subst hin
      have h1 : loop_stop (some i) i = true := by
        unfold loop_stop
        have h2 : decide (i ≠ 0) = true := decide_eq_true (by omega)
        have h3 : decide (i ≥ i) = true := decide_eq_true (le_refl i)
        simp [h2, h3]
      simp only [run_from, h1]
      simp
    · push_neg at hstop
      have h1 : loop_stop (some n) i = false := by
        unfold loop_stop
        have h2 : decide (i ≥ n) = false := decide_eq_false (by omega)
        simp [h2]
      simp only [run_from, h1]
      simp only [Bool.false_eq_true, if_false]
      rw [ih (i + 1) (by omega) (by omega)]
      omega

/-- C8 (amended): for every positive explicit limit n ≥ 1 the loop runs
exactly n cycles and stops; with no limit it never stops (runs `fuel`
cycles for every fuel bound); a supplied limit of 0 is falsy in the guard
and behaves like no limit. -/
theorem run_iteration_count :
    (∀ n fuel : ℕ, 1 ≤ n → n + 1 ≤ fuel → run_from (some n) 0 fuel = n) ∧
    (∀ fuel : ℕ, run_from none 0 fuel = fuel) ∧
    (∀ fuel : ℕ, run_from (some 0) 0 fuel = fuel) := by
  refine ⟨?_, ?_, ?_⟩
  · intro n fuel hn hfuel
    have := run_from_some n 0 fuel (by omega) (by omega) (by omega)
    simpa using this
  · intro fuel
    exact run_from_none 0 fuel
  · intro fuel
    exact run_from_zero_limit 0 fuel

/-- Witness for C8 (amended): limit 2 with fuel 5 yields exactly 2 cycles;
no limit with fuel 5 yields 5 cycles; limit 0 with fuel 5 yields 5 cycles. -/
theorem run_iteration_count_witness :
    run_from (some 2) 0 5 = 2 ∧ run_from none 0 5 = 5 ∧ run_from (some 0) 0 5 = 5 :=
  ⟨run_iteration_count.1 2 5 (by norm_num) (by norm_num),
   run_iteration_count.2.1 5, run_iteration_count.2.2 5⟩

/-- C8 counterexample to the claim as stated: with the explicitly supplied
iteration limit 0, the loop does not execute 0 cycles and terminate — the
guard `max_iterations and ...` is falsy at 0, so it keeps running (3 cycles
within fuel 3, and generally never stops). -/
theorem run_zero_limit_does_not_stop :
    run_from (some 0) 0 3 = 3 ∧ (3 : ℕ) ≠ 0 := by
  constructor
  · rfl
  · norm_num

/-- C9 (amended): starting the monitor with zero registered strategies
fails: `run` raises ValueError before entering the polling loop; with at
least one registered strategy the startup check passes and the loop runs. -/
theorem run_requires_strategies (strategies : List String)
    (max_iterations : Option ℕ) (fuel : ℕ) :
    (strategies = [] → run strategies max_iterations fuel =
      Except.error "No strategies added. Add at least one strategy before running.") ∧
    (strategies ≠ [] → run strategies max_iterations fuel =
      Except.ok (run_from max_iterations 0 fuel)) := by
  constructor
  · intro h
    subst h
    rfl
  · intro h
    simp [run, List.isEmpty_iff, h]

/-- Witness for C9 (amended): with one strategy registered, `run` enters
the loop (and with limit 1 performs one cycle). -/
theorem run_requires_strategies_witness :
    run ["LLM Strategy"] (some 1) 5 = Except.ok (run_from (some 1) 0 5) ∧
    run_from (some 1) 0 5 = 1 :=
  ⟨(run_requires_strategies ["LLM Strategy"] (some 1) 5).2 (by simp), by rfl⟩

/-- C9 counterexample to the claim as stated: with zero registered
strategies `run` does not start the polling loop — it raises ValueError. -/
theorem run_no_strategies_fails :
    run [] none 5 =
      Except.error "No strategies added. Add at least one strategy before running." := rfl

/-- Python `str.strip()` on a character list: drop whitespace from both
ends. -/
def strip_chars (l : List Char) : List Char :=
  ((l.dropWhile Char.isWhitespace).reverse.dropWhile Char.isWhitespace).reverse

/-- Python `str.split(sep)` for a one-character separator (the code only
splits on `"\n"` and `":"`): split at every occurrence, keeping empty
pieces, so the result always has one more piece than there are separators. -/
def split_on_char (sep : Char) : List Char → List (List Char)
  | [] => [[]]
  | c :: rest =>
    if c = sep then [] :: split_on_char sep rest
    else
      match split_on_char sep rest with
      | [] => [[c]]
      | g :: gs => (c :: g) :: gs

/-- Decimal digit run to a natural number (`none` when empty or containing
a non-digit). -/
def digits_to_nat (l : List Char) : Option ℕ :=
  if l ≠ [] ∧ l.all Char.isDigit then
    some (l.foldl (fun acc c => acc * 10 + (c.toNat - 48)) 0)
  else none

/-- Python `float(s)` on the plain decimal strings the parser can receive:
optional surrounding whitespace (Python strips it; the code also calls
`.strip()` first), optional sign, digits with an optional single decimal
point.  Any other string raises ValueError in Python, modelled as `none`.
(Scientific notation and inf/nan are accepted by Python but are not produced
by the three-line reply format; they also yield `none` here.) -/
def parse_py_float (s : List Char) : Option ℚ :=
  let t := strip_chars s
  let sign : ℚ := if ['-'].isPrefixOf t then -1 else 1
  let u := if ['-'].isPrefixOf t ∨ ['+'].isPrefixOf t then t.drop 1 else t
  match split_on_char '.' u with
  | [w] => (digits_to_nat w).map (fun n => sign * (n : ℚ))
  | [w, fr] =>
    if w.isEmpty ∧ fr.isEmpty then none
    else
      match (if w.isEmpty then some 0 else digits_to_nat w),
            (if fr.isEmpty then some 0 else digits_to_nat fr) with
      | some a, some b => some (sign * ((a : ℚ) + (b : ℚ) / ((10 : ℚ) ^ fr.length)))
      | _, _ => none
  | _ => none

/-- The local variables of `LLMStrategy._parse_response`'s line loop
(src/mikhailtal_trader/strategies/llm_strategy.py). -/
structure ParseState where
  probability : Option ℚ
  confidence : Option ℚ
  reasoning : String
deriving DecidableEq, Repr

/-- One iteration of the line loop of `_parse_response`.  On a
`PROBABILITY:`/`CONFIDENCE:` line, Python takes `line.split(":")[1]`
(the text between the first and second colon), strips it and parses it as a
float, dividing by 100; a float parse failure raises ValueError.  On a
`REASONING:` line it takes the remainder after the first colon
(`line.split(":", 1)[1]`, i.e. drop the 10-character tag), stripped.
Other lines are skipped. -/
def parse_line (st : ParseState) (line : List Char) : Except String ParseState :=
  if "PROBABILITY:".data.isPrefixOf line then
    match parse_py_float ((split_on_char ':' line).getD 1 []) with
    | some v => Except.ok { st with probability := some (v / 100) }
    | none => Except.error "could not convert string to float"
  else if "CONFIDENCE:".data.isPrefixOf line then
    match parse_py_float ((split_on_char ':' line).getD 1 []) with
    | some v => Except.ok { st with confidence := some (v / 100) }
    | none => Except.error "could not convert string to float"
  else if "REASONING:".data.isPrefixOf line then
    Except.ok { st with reasoning := String.mk (strip_chars (line.drop 10)) }
  else
    Except.ok st

/-- The line loop of `_parse_response` over all lines of the reply. -/
def parse_lines (lines : List (List Char)) : Except String ParseState :=
  List.foldlM parse_line { probability := none, confidence := none, reasoning := "" } lines

/-- The body of the `try` block of `_parse_response`: split the stripped
reply into lines, run the line loop, fail if either numeric field is still
missing, otherwise build the Signal with the baked-in thresholds
(`|p − q| ≥ 0.05` and `confidence ≥ 0.6`) and direction
(`YES` iff p > q). -/
def parse_response_core (response : String) (current_prob : ℚ) :
    Except String StrategySignal := do
  let st ← parse_lines (split_on_char '\n' (strip_chars response.data))
  match st.probability, st.confidence with
  | some probability, some confidence =>
    let prob_diff := |probability - current_prob|
    Except.ok
      { should_bet := decide (prob_diff ≥ (5 : ℚ)/100) && decide (confidence ≥ (6 : ℚ)/10),
        outcome := if probability > current_prob then "YES" else "NO",
        confidence := confidence,
        estimated_probability := probability,
        reasoning := st.reasoning,
        suggested_amount := none }
  | _, _ => Except.error "Could not parse probability or confidence"

/-- `LLMStrategy._parse_response`: the catch-all around the parse collapses
every failure into a zero-confidence no-bet Signal defaulting to the
market's current probability. -/
def parse_response (response : String) (current_prob : ℚ) : StrategySignal :=
  match parse_response_core response current_prob with
  | Except.ok sig => sig
  | Except.error e =>
    { should_bet := false, outcome := "YES", confidence := 0,
      estimated_probability := current_prob,
      reasoning := "Parse error: " ++ e, suggested_amount := none }

/-- `LLMStrategy.analyze`: the round trip to the text-generation back-end is
supplied as an `Except String String` (error or reply text); a back-end
error is caught and degraded to a zero-confidence no-bet Signal, otherwise
the reply is parsed by `parse_response`.  `current_prob` is
`market.get("probability", 0.5)`. -/
def analyze (market : Market) (backend : Except String String) : StrategySignal :=
  let current_prob := market.probability.getD (1/2)
  match backend with
  | Except.ok response => parse_response response current_prob
  | Except.error e =>
    { should_bet := false, outcome := "YES", confidence := 0,
      estimated_probability := current_prob,
      reasoning := "Error: " ++ e, suggested_amount := none }

/-- C5: `analyze` is total by construction (it always returns a
`StrategySignal`), and in every failure case — back-end error, or a reply
whose parse fails (missing or unparseable PROBABILITY/CONFIDENCE line) —
the returned Signal has confidence exactly 0, `should_bet = false`,
`estimated_probability` equal to the market's current probability, and the
failure reason as its rationale. -/
theorem analyze_error_containment (market : Market) (backend : Except String String) :
    (∀ e, backend = Except.error e →
      analyze market backend =
        { should_bet := false, outcome := "YES", confidence := 0,
          estimated_probability := market.probability.getD (1/2),
          reasoning := "Error: " ++ e, suggested_amount := none }) ∧
    (∀ r e, backend = Except.ok r →
      parse_response_core r (market.probability.getD (1/2)) = Except.error e →
      analyze market backend =
        { should_bet := false, outcome := "YES", confidence := 0,
          estimated_probability := market.probability.getD (1/2),
          reasoning := "Parse error: " ++ e, suggested_amount := none }) := by
  constructor
  · intro e he
    subst he
    rfl
  · intro r e hr hperr
    subst hr
    simp only [analyze, parse_response, hperr]

/-- Witness for C5: a concrete market at probability 3/10; a back-end error
and a reply with no PROBABILITY/CONFIDENCE lines both yield the degraded
zero-confidence Signal. -/
theorem analyze_error_containment_witness :
    analyze
        { id := "m1", question := "q", description := "", probability := some (3/10),
          isResolved := none, closeTime := none, outcomeType := some "BINARY",
          volume := none }
        (Except.error "boom") =
      { should_bet := false, outcome := "YES", confidence := 0,
        estimated_probability := 3/10, reasoning := "Error: boom",
        suggested_amount := none } ∧
    analyze
        { id := "m1", question := "q", description := "", probability := some (3/10),
          isResolved := none, closeTime := none, outcomeType := some "BINARY",
          volume := none }
        (Except.ok "hello") =
      { should_bet := false, outcome := "YES", confidence := 0,
        estimated_probability := 3/10,
        reasoning := "Parse error: Could not parse probability or confidence",
        suggested_amount := none } :=
  ⟨(analyze_error_containment
      { id := "m1", question := "q", description := "", probability := some (3/10),
        isResolved := none, closeTime := none, outcomeType := some "BINARY",
        volume := none } (Except.error "boom")).1 "boom" rfl,
   (analyze_error_containment
      { id := "m1", question := "q", description := "", probability := some (3/10),
        isResolved := none, closeTime := none, outcomeType := some "BINARY",
        volume := none } (Except.ok "hello")).2 "hello"
      "Could not parse probability or confidence" rfl (by rfl)⟩

/-- `ManifoldBot._execute_trades` consensus loop: iterate the collected
(strategy, signal) pairs in registration order; the first with
`signal.should_bet and signal.confidence >= self.min_confidence` is acted
on (`_place_bet` is called and the loop returns); `none` means no bet was
attempted for the market.  Strategies are identified by their names. -/
def execute_trades (min_confidence : ℚ) :
    List (String × StrategySignal) → Option (String × StrategySignal)
  | [] => none
  | (strategy, signal) :: rest =>
    if signal.should_bet && decide (signal.confidence ≥ min_confidence) then
      some (strategy, signal)
    else
      execute_trades min_confidence rest

/-- C4: the consensus step acts on exactly the first pair (in registration
order) whose signal has `should_bet = true` and confidence at least the
configured minimum — whenever the list splits as `l₁ ++ p :: l₂` with no
qualifying pair in `l₁` and `p` qualifying, `p` is selected, so no later
pair is ever executed regardless of its confidence; and when no pair
qualifies, no bet is attempted. -/
theorem execute_trades_first_qualifying (min_confidence : ℚ)
    (signals : List (String × StrategySignal)) :
    (∀ l₁ p l₂, signals = l₁ ++ p :: l₂ →
      (∀ x ∈ l₁, ¬(x.2.should_bet = true ∧ x.2.confidence ≥ min_confidence)) →
      p.2.should_bet = true ∧ p.2.confidence ≥ min_confidence →
      execute_trades min_confidence signals = some p) ∧
    ((∀ x ∈ signals, ¬(x.2.should_bet = true ∧ x.2.confidence ≥ min_confidence)) →
      execute_trades min_confidence signals = none) := by
  constructor
  · intro l₁ p l₂ hsplit hnone hp
    subst hsplit
    induction l₁ with
    | nil =>
      obtain ⟨strategy, signal⟩ := p
      simp only [List.nil_append, execute_trades]
      rw [if_pos]
      simp only [Bool.and_eq_true, decide_eq_true_eq]
      exact ⟨hp.1, hp.2⟩
    | cons x xs ih =>
      obtain ⟨strategy, signal⟩ := x
      have hx : ¬(signal.should_bet = true ∧ signal.confidence ≥ min_confidence) :=
        hnone ⟨strategy, signal⟩ (List.mem_cons_self _ _)
      simp only [List.cons_append, execute_trades]
      rw [if_neg]
      · exact ih (fun y hy => hnone y (List.mem_cons_of_mem _ hy))
      · simp only [Bool.and_eq_true, decide_eq_true_eq]
        exact hx
  · intro hnone
    induction signals with
    | nil => rfl
    | cons x xs ih =>
      obtain ⟨strategy, signal⟩ := x
      have hx : ¬(signal.should_bet = true ∧ signal.confidence ≥ min_confidence) :=
        hnone ⟨strategy, signal⟩ (List.mem_cons_self _ _)
      simp only [execute_trades]
      rw [if_neg]
      · exact ih (fun y hy => hnone y (List.mem_cons_of_mem _ hy))
      · simp only [Bool.and_eq_true, decide_eq_true_eq]
        exact hx

/-- Witness for C4: with minimum confidence 0.6, the first qualifying
signal (confidence 0.7) is selected over a later one with strictly higher
confidence (0.9); and with only non-qualifying signals no bet is
attempted. -/
theorem execute_trades_first_qualifying_witness :
    execute_trades (6/10)
      [("a", { should_bet := false, outcome := "YES", confidence := 9/10,
               estimated_probability := 1/2, reasoning := "r0", suggested_amount := none }),
       ("b", { should_bet := true, outcome := "YES", confidence := 7/10,
               estimated_probability := 3/5, reasoning := "r1", suggested_amount := none }),
       ("c", { should_bet := true, outcome := "NO", confidence := 9/10,
               estimated_probability := 1/5, reasoning := "r2", suggested_amount := none })] =
      some ("b", { should_bet := true, outcome := "YES", confidence := 7/10,
                   estimated_probability := 3/5, reasoning := "r1",
                   suggested_amount := none }) ∧
    execute_trades (6/10)
      [("a", { should_bet := true, outcome := "YES", confidence := 1/2,
               estimated_probability := 3/5, reasoning := "r3", suggested_amount := none })] =
      none :=
  ⟨(execute_trades_first_qualifying (6/10)
      [("a", { should_bet := false, outcome := "YES", confidence := 9/10,
               estimated_probability := 1/2, reasoning := "r0", suggested_amount := none }),
       ("b", { should_bet := true, outcome := "YES", confidence := 7/10,
               estimated_probability := 3/5, reasoning := "r1", suggested_amount := none }),
       ("c", { should_bet := true, outcome := "NO", confidence := 9/10,
               estimated_probability := 1/5, reasoning := "r2", suggested_amount := none })]).1
      [("a", { should_bet := false, outcome := "YES", confidence := 9/10,
               estimated_probability := 1/2, reasoning := "r0", suggested_amount := none })]
      ("b", { should_bet := true, outcome := "YES", confidence := 7/10,
              estimated_probability := 3/5, reasoning := "r1", suggested_amount := none })
      [("c", { should_bet := true, outcome := "NO", confidence := 9/10,
               estimated_probability := 1/5, reasoning := "r2", suggested_amount := none })]
      rfl
      (by
        intro x hx
        simp only [List.mem_singleton] at hx
        subst hx
        simp)
      (by norm_num),
   (execute_trades_first_qualifying (6/10)
      [("a", { should_bet := true, outcome := "YES", confidence := 1/2,
               estimated_probability := 3/5, reasoning := "r3", suggested_amount := none })]).2
      (by
        intro x hx
        simp only [List.mem_singleton] at hx
        subst hx
        norm_num)⟩

/-- The closed/resolved filter of `ManifoldBot._process_market`:
`market.get("isResolved", False) or market.get("closeTime", float("inf")) <
time.time() * 1000`.  A missing `isResolved` defaults to false; a missing
`closeTime` compares as positive infinity, i.e. the comparison is false. -/
def market_closed (m : Market) (now_ms : ℚ) : Bool :=
  m.isResolved.getD false ||
    (match m.closeTime with
     | some c => decide (c < now_ms)
     | none => false)

/-- Outcome of `_process_market` for one market: skipped because closed or
resolved; skipped because not a binary market (carrying the offending
outcome type); or analyzed, carrying the collected (strategy, signal) pairs
in registration order and the consensus result. -/
inductive ProcessOutcome where
  | skippedClosed : ProcessOutcome
  | skippedType : Option String → ProcessOutcome
  | analyzed : List (String × StrategySignal) → Option (String × StrategySignal) →
      ProcessOutcome
deriving DecidableEq

/-- `ManifoldBot._process_market`: skip closed/resolved markets, skip
non-binary markets, otherwise run every registered strategy (a strategy is
a named total function to `Except`; the per-strategy `try/except` in the
code drops a failing strategy's signal and continues) and apply the
consensus step.  Strategy analysis is a pure function of the market here;
`min_confidence` and `now_ms` are the bot configuration and current time. -/
def process_market (strategies : List (String × (Market → Except String StrategySignal)))
    (min_confidence : ℚ) (now_ms : ℚ) (m : Market) : ProcessOutcome :=
  if market_closed m now_ms then
    ProcessOutcome.skippedClosed
  else if m.outcomeType ≠ some "BINARY" then
    ProcessOutcome.skippedType m.outcomeType
  else
    let signals := strategies.filterMap (fun p =>
      match p.2 m with
      | Except.ok signal => some (p.1, signal)
      | Except.error _ => none)
    ProcessOutcome.analyzed signals (execute_trades min_confidence signals)

/-- C10: a market dictionary lacking both the `isResolved` and the
`closeTime` key is treated as open: it is never skipped as closed/resolved,
so it proceeds to the outcome-type check, and when its outcome type is
BINARY it reaches strategy analysis. -/
theorem process_market_missing_keys_open
    (strategies : List (String × (Market → Except String StrategySignal)))
    (min_confidence now_ms : ℚ) (m : Market)
    (hres : m.isResolved = none) (hclose : m.closeTime = none) :
    market_closed m now_ms = false ∧
    process_market strategies min_confidence now_ms m ≠ ProcessOutcome.skippedClosed ∧
    (m.outcomeType = some "BINARY" →
      process_market strategies min_confidence now_ms m =
        ProcessOutcome.analyzed
          (strategies.filterMap (fun p =>
            match p.2 m with
            | Except.ok signal => some (p.1, signal)
            | Except.error _ => none))
          (execute_trades min_confidence
            (strategies.filterMap (fun p =>
              match p.2 m with
              | Except.ok signal => some (p.1, signal)
              | Except.error _ => none)))) := by
  have hmc : market_closed m now_ms = false := by
    simp [market_closed, hres, hclose]
  refine ⟨hmc, ?_, ?_⟩
  · intro habs
    rw [process_market, hmc] at habs
    simp only [Bool.false_eq_true, if_false] at habs
    by_cases hb : m.outcomeType ≠ some "BINARY"
    · rw [if_pos hb] at habs
      exact ProcessOutcome.noConfusion habs
    · rw [if_neg hb] at habs
      exact ProcessOutcome.noConfusion habs
  · intro hb
    rw [process_market, hmc]
    simp only [Bool.false_eq_true, if_false]
    rw [if_neg (by simp [hb])]

/-- Witness for C10: a concrete BINARY market with no `isResolved` and no
`closeTime` key reaches strategy analysis (one strategy, which signals). -/
theorem process_market_missing_keys_open_witness :
    market_closed
      { id := "m1", question := "q", description := "", probability := some (1/2),
        isResolved := none, closeTime := none, outcomeType := some "BINARY",
        volume := none } 1000 = false ∧
    process_market
      [("s", fun _ => Except.ok
        { should_bet := false, outcome := "YES", confidence := 0,
          estimated_probability := 1/2, reasoning := "r", suggested_amount := none })]
      (6/10) 1000
      { id := "m1", question := "q", description := "", probability := some (1/2),
        isResolved := none, closeTime := none, outcomeType := some "BINARY",
        volume := none } =
      ProcessOutcome.analyzed
        [("s", { should_bet := false, outcome := "YES", confidence := 0,
                 estimated_probability := 1/2, reasoning := "r", suggested_amount := none })]
        none := by
  have h := process_market_missing_keys_open
    [("s", fun _ => Except.ok
      { should_bet := false, outcome := "YES", confidence := 0,
        estimated_probability := 1/2, reasoning := "r", suggested_amount := none })]
    (6/10) 1000
    { id := "m1", question := "q", description := "", probability := some (1/2),
      isResolved := none, closeTime := none, outcomeType := some "BINARY",
      volume := none } rfl rfl
  refine ⟨h.1, ?_⟩
  have h3 := h.2.2 rfl
  rw [h3]
  rfl

/-- The per-market loop inside `ManifoldBot._check_markets`: process each
new market, then add its identifier to `processed_markets` — unconditionally,
whatever `_process_market` returned. -/
def process_loop (strategies : List (String × (Market → Except String StrategySignal)))
    (min_confidence now_ms : ℚ) :
    List Market → List String → List String × List (String × ProcessOutcome)
  | [], processed => (processed, [])
  | m :: rest, processed =>
    let outcome := process_market strategies min_confidence now_ms m
    let r := process_loop strategies min_confidence now_ms rest (processed ++ [m.id])
    (r.1, (m.id, outcome) :: r.2)

/-- `ManifoldBot._check_markets` for one polling cycle: filter the fetched
listing to identifiers not yet in `processed_markets`
(`[m for m in markets if m["id"] not in self.processed_markets]`), then run
the per-market loop.  Returns the updated processed set and the
(identifier, outcome) pairs of the markets that entered processing. -/
def check_markets (strategies : List (String × (Market → Except String StrategySignal)))
    (min_confidence now_ms : ℚ) (processed : List String) (markets : List Market) :
    List String × List (String × ProcessOutcome) :=
  process_loop strategies min_confidence now_ms
    (markets.filter (fun m => !(decide (m.id ∈ processed)))) processed

/-- A sequence of polling cycles of the bot, one fetched listing per cycle:
returns the final processed set and the concatenated sequence of market
identifiers that entered processing (were dispatched), in order and with
multiplicity. -/
def run_cycles (strategies : List (String × (Market → Except String StrategySignal)))
    (min_confidence now_ms : ℚ) :
    List (List Market) → List String → List String × List String
  | [], processed => (processed, [])
  | markets :: rest, processed =>
    let c := check_markets strategies min_confidence now_ms processed markets
    let r := run_cycles strategies min_confidence now_ms rest c.1
    (r.1, c.2.map Prod.fst ++ r.2)

lemma process_loop_fst (strategies : List (String × (Market → Except String StrategySignal)))
    (min_confidence now_ms : ℚ) (l : List Market) :
    ∀ processed : List String,
      (process_loop strategies min_confidence now_ms l processed).1 =
        processed ++ l.map Market.id := by
  induction l with
  | nil => intro processed; simp [process_loop]
  | cons m rest ih =>
    intro processed
    simp only [process_loop, ih (processed ++ [m.id]), List.map_cons]
    simp

lemma process_loop_ids (strategies : List (String × (Market → Except String StrategySignal)))
    (min_confidence now_ms : ℚ) (l : List Market) :
    ∀ processed : List String,
      (process_loop strategies min_confidence now_ms l processed).2.map Prod.fst =
        l.map Market.id := by
  induction l with
  | nil => intro processed; simp [process_loop]
  | cons m rest ih =>
    intro processed
    simp only [process_loop, List.map_cons, ih (processed ++ [m.id])]

lemma check_markets_fst (strategies : List (String × (Market → Except String StrategySignal)))
    (min_confidence now_ms : ℚ) (processed : List String) (markets : List Market) :
    (check_markets strategies min_confidence now_ms processed markets).1 =
      processed ++
        (markets.filter (fun m => !(decide (m.id ∈ processed)))).map Market.id :=
  process_loop_fst strategies min_confidence now_ms _ processed

lemma check_markets_ids (strategies : List (String × (Market → Except String StrategySignal)))
    (min_confidence now_ms : ℚ) (processed : List String) (markets : List Market) :
    (check_markets strategies min_confidence now_ms processed markets).2.map Prod.fst =
      (markets.filter (fun m => !(decide (m.id ∈ processed)))).map Market.id :=
  process_loop_ids strategies min_confidence now_ms _ processed

lemma mem_filtered_ids_not_processed (processed : List String) (markets : List Market)
    (i : String)
    (hi : i ∈ (markets.filter (fun m => !(decide (m.id ∈ processed)))).map Market.id) :
    i ∉ processed := by
  obtain ⟨m, hm, rfl⟩ := List.mem_map.mp hi
  have := List.mem_filter.mp hm
  simpa using this.2

lemma filtered_ids_nodup (processed : List String) (markets : List Market)
    (h : (markets.map Market.id).Nodup) :
    ((markets.filter (fun m => !(decide (m.id ∈ processed)))).map Market.id).Nodup :=
  h.sublist ((List.filter_sublist markets).map Market.id)

/-- C1: over any sequence of polling cycles starting from any processed set,
(1) the identifiers that enter processing are pairwise distinct — no market
identifier is dispatched twice in the process lifetime; (2) an identifier
already in the processed set is never dispatched on any later cycle, even if
it reappears in a listing; (3) every identifier that enters processing is in
the final processed set, regardless of its processing outcome; (4) the
processed set only grows.  The hypothesis states that a single fetched
listing lists each market identifier once (the provider lists each market of
the creator once per reply). -/
theorem check_markets_at_most_once
    (strategies : List (String × (Market → Except String StrategySignal)))
    (min_confidence now_ms : ℚ)
    (listings : List (List Market)) (processed : List String)
    (hnd : ∀ l ∈ listings, (l.map Market.id).Nodup) :
    (run_cycles strategies min_confidence now_ms listings processed).2.Nodup ∧
    (∀ i ∈ processed,
      i ∉ (run_cycles strategies min_confidence now_ms listings processed).2) ∧
    (∀ i ∈ (run_cycles strategies min_confidence now_ms listings processed).2,
      i ∈ (run_cycles strategies min_confidence now_ms listings processed).1) ∧
    (∀ i ∈ processed,
      i ∈ (run_cycles strategies min_confidence now_ms listings processed).1) := by
  induction listings generalizing processed with
  | nil =>
    refine ⟨List.nodup_nil, ?_, ?_, ?_⟩
    · intro i _ hi
      simp [run_cycles] at hi
    · intro i hi
      simp [run_cycles] at hi
    · intro i hi
      simpa [run_cycles] using hi
  | cons markets rest ih =>
    have hndm : (markets.map Market.id).Nodup := hnd markets (List.mem_cons_self _ _)
    have hndr : ∀ l ∈ rest, (l.map Market.id).Nodup :=
      fun l hl => hnd l (List.mem_cons_of_mem _ hl)
    have hd0 := check_markets_ids strategies min_confidence now_ms processed markets
    have hp1 := check_markets_fst strategies min_confidence now_ms processed markets
    have IH := ih ((check_markets strategies min_confidence now_ms processed markets).1) hndr
    have hmem_p1 : ∀ i,
        i ∈ (check_markets strategies min_confidence now_ms processed markets).2.map Prod.fst ∨
          i ∈ processed →
        i ∈ (check_markets strategies min_confidence now_ms processed markets).1 := by
      intro i hi
      rw [hp1]
      rcases hi with hi | hi
      · exact List.mem_append.mpr (Or.inr (by rw [hd0] at hi; exact hi))
      · exact List.mem_append.mpr (Or.inl hi)
    have hnd0 :
        ((check_markets strategies min_confidence now_ms processed markets).2.map
          Prod.fst).Nodup := by
      rw [hd0]
      exact filtered_ids_nodup processed markets hndm
    have hfresh : ∀ i ∈ (check_markets strategies min_confidence now_ms processed
        markets).2.map Prod.fst, i ∉ processed := by
      intro i hi
      rw [hd0] at hi
      exact mem_filtered_ids_not_processed processed markets i hi
    simp only [run_cycles]
    refine ⟨?_, ?_, ?_, ?_⟩
    · refine List.Nodup.append hnd0 IH.1 ?_
      intro i hi0 hir
      exact IH.2.1 i (hmem_p1 i (Or.inl hi0)) hir
    · intro i hipr hi
      rcases List.mem_append.mp hi with hi0 | hir
      · exact hfresh i hi0 hipr
      · exact IH.2.1 i (hmem_p1 i (Or.inr hipr)) hir
    · intro i hi
      rcases List.mem_append.mp hi with hi0 | hir
      · exact IH.2.2.2 i (hmem_p1 i (Or.inl hi0))
      · exact IH.2.2.1 i hir
    · intro i hipr
      exact IH.2.2.2 i (hmem_p1 i (Or.inr hipr))

/-- Concrete markets for the C1 witness run. -/
def market_a : Market :=
  { id := "a", question := "qa", description := "", probability := none,
    isResolved := none, closeTime := none, outcomeType := some "BINARY",
    volume := none }

def market_b : Market :=
  { id := "b", question := "qb", description := "", probability := none,
    isResolved := none, closeTime := none, outcomeType := some "BINARY",
    volume := none }

/-- A registered strategy for the C1 witness run. -/
def witness_strategies : List (String × (Market → Except String StrategySignal)) :=
  [("s", fun _ => Except.ok
    { should_bet := false, outcome := "YES", confidence := 0,
      estimated_probability := 1/2, reasoning := "r", suggested_amount := none })]

/-- Witness for C1: two cycles where market `a` reappears in the second
listing; the dispatched sequence is exactly `["a", "b"]` — `a` is not
dispatched again — and it is duplicate-free, and both identifiers end up in
the processed set. -/
theorem check_markets_at_most_once_witness :
    (run_cycles witness_strategies 0 0 [[market_a, market_b], [market_a]] []).2 =
      ["a", "b"] ∧
    (run_cycles witness_strategies 0 0 [[market_a, market_b], [market_a]] []).2.Nodup ∧
    (∀ i ∈ ([] : List String),
      i ∉ (run_cycles witness_strategies 0 0 [[market_a, market_b], [market_a]] []).2) ∧
    (∀ i ∈ (run_cycles witness_strategies 0 0 [[market_a, market_b], [market_a]] []).2,
      i ∈ (run_cycles witness_strategies 0 0 [[market_a, market_b], [market_a]] []).1) ∧
    (∀ i ∈ ([] : List String),
      i ∈ (run_cycles witness_strategies 0 0 [[market_a, market_b], [market_a]] []).1) := by
  have h := check_markets_at_most_once witness_strategies 0 0
    [[market_a, market_b], [market_a]] [] (by decide)
  exact ⟨rfl, h.1, h.2.1, h.2.2.1, h.2.2.2⟩
